import Mathlib

/-!
# Verification of the employee-scheduling repository

Shallow embedding of the scheduling application's business layer
(`business.js` / the unnamed module with `assignShift`, `toMinutes`,
`getShiftMinutes`), the persistence layer (`persistence.js`), the
Assignment3 web handler (`app.js`) and the sorted-schedule query
(`business.js` of Assignment3).

JavaScript numbers are modelled as exact rationals; the non-finite
values (NaN and ±Infinity) are collapsed into a single `JsNum.nan`
constructor, which is observationally equivalent for this code base:
the programs only ever apply `Number.isFinite` / `Number.isInteger`
(false on all non-finite values) and ordered comparisons guarded by
those checks.  Strings are modelled as sequences of characters
(`String.data`).
-/

/-- A JavaScript number: either a non-finite sentinel (NaN, ±Infinity —
the code never distinguishes them) or a finite value modelled as an
exact rational. -/
inductive JsNum where
  | nan : JsNum
  | num : ℚ → JsNum
deriving DecidableEq

/-- Model of `Number.isInteger`: false on non-finite values, otherwise tests
integrality (denominator 1). -/
def jsIsInteger : JsNum → Bool
  | JsNum.nan => false
  | JsNum.num q => q.den == 1

/-- The characters treated as whitespace by ECMAScript `StrWhiteSpaceChar`
(WhiteSpace ∪ LineTerminator): TAB LF VT FF CR SP NBSP ZWNBSP, the
Unicode Zs spaces, and the line/paragraph separators. -/
def isJsWhitespace (c : Char) : Bool :=
  c == '\t' || c == '\n' || c == '\x0b' || c == '\x0c' || c == '\r' || c == ' ' ||
  c == '\u00A0' || c == '\u1680' ||
  (decide ('\u2000' ≤ c) && decide (c ≤ '\u200A')) ||
  c == '\u2028' || c == '\u2029' || c == '\u202F' || c == '\u205F' ||
  c == '\u3000' || c == '\uFEFF'

/-- Strip JS whitespace from both ends of a character list. -/
def jsTrimChars (cs : List Char) : List Char :=
  ((cs.dropWhile isJsWhitespace).reverse.dropWhile isJsWhitespace).reverse

/-- Model of `String.prototype.trim`. -/
def jsTrim (s : String) : String :=
  String.mk (jsTrimChars s.data)

/-- Numeric value of a decimal digit character (only applied to digits). -/
def digitVal (c : Char) : ℕ := c.toNat - 48

/-- Value of a hexadecimal digit character, if it is one. -/
def hexDigitVal (c : Char) : Option ℕ :=
  if c.isDigit then some (c.toNat - 48)
  else if decide ('a' ≤ c) && decide (c ≤ 'f') then some (c.toNat - 87)
  else if decide ('A' ≤ c) && decide (c ≤ 'F') then some (c.toNat - 55)
  else none

/-- Value of a digit character in the given base (2, 8 or 16), if valid. -/
def radixDigitVal (base : ℕ) (c : Char) : Option ℕ :=
  match hexDigitVal c with
  | some v => if v < base then some v else none
  | none => none

/-- Parse a non-empty run of digits in the given base; `none` when empty
or when any character is not a digit of that base. -/
def parseRadix (base : ℕ) (cs : List Char) : Option ℕ :=
  if cs.isEmpty then none
  else
    cs.foldl
      (fun acc c =>
        match acc, radixDigitVal base c with
        | some n, some v => some (base * n + v)
        | _, _ => none)
      (some 0)

/-- Natural number denoted by a run of decimal digit characters. -/
def natOfDigits (cs : List Char) : ℕ :=
  cs.foldl (fun acc c => 10 * acc + digitVal c) 0

/-- ECMAScript `StrUnsignedDecimalLiteral` (without `Infinity`):
`digits [. digits] [e sign digits]` with at least one digit in the
mantissa; the whole input must be consumed.  Returns the exact rational
value (the real JS conversion then rounds to binary64; the programs
verified here only ever parse two-character slices, where the value is
exact). -/
def parseUnsignedDecimal (cs : List Char) : Option ℚ :=
  let intDigits := cs.takeWhile Char.isDigit
  let rest1 := cs.drop intDigits.length
  let fracDigits :=
    match rest1 with
    | '.' :: t => t.takeWhile Char.isDigit
    | _ => []
  let rest2 :=
    match rest1 with
    | '.' :: t => t.drop (t.takeWhile Char.isDigit).length
    | _ => rest1
  if intDigits.length + fracDigits.length == 0 then none
  else
    let mant : ℚ :=
      (natOfDigits intDigits : ℚ) + (natOfDigits fracDigits : ℚ) / ((10 : ℚ) ^ fracDigits.length)
    match rest2 with
    | [] => some mant
    | e :: t =>
      if e == 'e' || e == 'E' then
        let esign : ℤ := match t with | '-' :: _ => -1 | _ => 1
        let t2 := match t with | '+' :: u => u | '-' :: u => u | _ => t
        let eds := t2.takeWhile Char.isDigit
        if eds.length == 0 || !(t2.drop eds.length).isEmpty then none
        else some (mant * (10 : ℚ) ^ (esign * (natOfDigits eds : ℤ)))
      else none

/-- ECMAScript non-decimal integer literals `0x… 0o… 0b…` (no sign
allowed), as used by `Number(string)`. -/
def parseHexLike (cs : List Char) : Option ℚ :=
  match cs with
  | '0' :: x :: rest =>
    if x == 'x' || x == 'X' then (parseRadix 16 rest).map (fun n => (n : ℚ))
    else if x == 'o' || x == 'O' then (parseRadix 8 rest).map (fun n => (n : ℚ))
    else if x == 'b' || x == 'B' then (parseRadix 2 rest).map (fun n => (n : ℚ))
    else none
  | _ => none

/-- Model of `Number(string)` (ECMAScript StringToNumber): trim whitespace, empty
means 0, non-decimal literals, otherwise an optionally signed decimal
literal or `Infinity`; anything else is NaN.  `±Infinity` is collapsed
into `JsNum.nan` (see module comment). -/
def jsStringToNumber (s : String) : JsNum :=
  let cs := jsTrimChars s.data
  match cs with
  | [] => JsNum.num 0
  | _ =>
    match parseHexLike cs with
    | some q => JsNum.num q
    | none =>
      let sign : ℚ := match cs with | '-' :: _ => -1 | _ => 1
      let cs2 := match cs with | '+' :: t => t | '-' :: t => t | _ => cs
      if cs2 = ['I', 'n', 'f', 'i', 'n', 'i', 't', 'y'] then JsNum.nan
      else
        match parseUnsignedDecimal cs2 with
        | some q => JsNum.num (sign * q)
        | none => JsNum.nan

/-- The first two characters of a time string (`timeText.slice(0, 2)`). -/
def hourStr (s : String) : String := String.mk (s.data.take 2)

/-- Characters 3–4 of a time string (`timeText.slice(3, 5)`). -/
def minuteStr (s : String) : String := String.mk (s.data.drop 3)

/-- The function `toMinutes(timeText)` from the business layer: a 5-character
`"HH:MM"` string becomes minutes since midnight; every failed check
returns NaN. -/
def toMinutes (timeText : String) : JsNum :=
  if timeText.data.length ≠ 5 then JsNum.nan
  else if timeText.data.get? 2 ≠ some ':' then JsNum.nan
  else
    match jsStringToNumber (hourStr timeText), jsStringToNumber (minuteStr timeText) with
    | JsNum.num hour, JsNum.num minute =>
      if hour.den ≠ 1 ∨ minute.den ≠ 1 then JsNum.nan
      else if hour < 0 ∨ 23 < hour ∨ minute < 0 ∨ 59 < minute then JsNum.nan
      else JsNum.num (hour * 60 + minute)
    | _, _ => JsNum.nan

/-- The function `getShiftMinutes(startTime, endTime)`: duration in minutes, pushing
the end time into the next day when it is numerically earlier than the
start (`endAdjusted += 24 * 60`); NaN when either endpoint fails
`toMinutes`. -/
def getShiftMinutes (startTime endTime : String) : JsNum :=
  match toMinutes startTime, toMinutes endTime with
  | JsNum.num start, JsNum.num «end» =>
    JsNum.num ((if «end» < start then «end» + 24 * 60 else «end») - start)
  | _, _ => JsNum.nan

example : toMinutes "09:30" = JsNum.num 570 := by with_unfolding_all rfl
example : toMinutes "9:30" = JsNum.nan := by with_unfolding_all rfl
example : toMinutes "24:00" = JsNum.nan := by with_unfolding_all rfl
example : getShiftMinutes "22:00" "02:00" = JsNum.num 240 := by with_unfolding_all rfl
example : getShiftMinutes "09:00" "17:00" = JsNum.num 480 := by with_unfolding_all rfl
example : jsStringToNumber " 9" = JsNum.num 9 := by with_unfolding_all rfl
example : jsStringToNumber "  " = JsNum.num 0 := by with_unfolding_all rfl
example : jsStringToNumber "1e" = JsNum.nan := by with_unfolding_all rfl
example : jsStringToNumber "0x" = JsNum.nan := by with_unfolding_all rfl
example : jsStringToNumber "-1" = JsNum.num (-1) := by with_unfolding_all rfl
example : jsStringToNumber "1." = JsNum.num 1 := by with_unfolding_all rfl
example : jsStringToNumber ".5" = JsNum.num (1/2) := by with_unfolding_all decide
example : toMinutes "  :30" = JsNum.num 30 := by with_unfolding_all rfl

/-! ## Data model and persistence layer (Assignment2 `persistence.js`) -/

/-- An employee record from `employees.json`. -/
structure Employee where
  employeeId : String
  name : String
  phone : String
deriving DecidableEq

/-- A shift record from `shifts.json`. -/
structure Shift where
  shiftId : String
  date : String
  startTime : String
  endTime : String
deriving DecidableEq

/-- An assignment record from `assignments.json`. -/
structure Assignment where
  employeeId : String
  shiftId : String
deriving DecidableEq

/-- Model of `findEmployee(empId)`: first record whose `employeeId` matches,
`undefined` (here `none`) otherwise. -/
def findEmployee (employees : List Employee) (empId : String) : Option Employee :=
  employees.find? (fun e => e.employeeId == empId)

/-- Model of `findShift(shiftId)`: first record whose `shiftId` matches. -/
def findShift (shifts : List Shift) (shiftId : String) : Option Shift :=
  shifts.find? (fun s => s.shiftId == shiftId)

/-- Model of `findAssignment(empId, shiftId)`: first record matching the
composite key. -/
def findAssignment (assignments : List Assignment) (empId shiftId : String) :
    Option Assignment :=
  assignments.find? (fun a => a.employeeId == empId && a.shiftId == shiftId)

/-- Model of `addAssignment(empId, shiftId)`: append a new record to the
assignments file. -/
def addAssignment (assignments : List Assignment) (empId shiftId : String) :
    List Assignment :=
  assignments ++ [{ employeeId := empId, shiftId := shiftId }]

/-- Model of `getEmployeeShifts(empId)`: the shift ids assigned to the employee,
then every shift record (in shifts-file order) whose id is among them. -/
def getEmployeeShifts (assignments : List Assignment) (shifts : List Shift)
    (empId : String) : List Shift :=
  let shiftIds :=
    (assignments.filter (fun a => a.employeeId == empId)).map (fun a => a.shiftId)
  shifts.filter (fun s => shiftIds.contains s.shiftId)

/-- Model of `readSettings()`: normalize the `maxDailyHours` value of `config.json`.  The
argument is the result of `Number(obj.maxDailyHours)` (NaN when the key
is missing or non-numeric); a non-finite or non-positive value falls
back to the safe default 8. -/
def readSettings (rawMaxDailyHours : JsNum) : ℚ :=
  match rawMaxDailyHours with
  | JsNum.nan => 8
  | JsNum.num value => if value ≤ 0 then 8 else value

/-- Model of `getConfig()`: compatibility wrapper delegating to `readSettings`. -/
def getConfig (rawMaxDailyHours : JsNum) : ℚ :=
  readSettings rawMaxDailyHours

/-! ## The assignment workflow (`assignShift` in the business layer) -/

/-- The data visible to one `assignShift` call: the three record files
and the configured `maxDailyHours` as the business layer reads it
(`Number(config.maxDailyHours)`). -/
structure SchedState where
  employees : List Employee
  shifts : List Shift
  assignments : List Assignment
  maxDailyHours : JsNum

/-- The loop of `assignShift` that sums `getShiftMinutes` over the
already-scheduled shifts with the same `date`, returning `none` as soon
as one of them has a non-finite or non-positive duration ("corrupted
time data"). -/
def sumSameDayMinutes (scheduled : List Shift) (date : String) (acc : ℚ) : Option ℚ :=
  match scheduled with
  | [] => some acc
  | s :: rest =>
    if s.date == date then
      match getShiftMinutes s.startTime s.endTime with
      | JsNum.nan => none
      | JsNum.num minutes =>
        if minutes ≤ 0 then none
        else sumSameDayMinutes rest date (acc + minutes)
    else sumSameDayMinutes rest date acc

/-- The function `assignShift(empId, shiftId)`: the six-step validation cascade; the
result is the returned message together with the assignments collection
after the call (unchanged except on the success path, which appends the
new record). -/
def assignShift (st : SchedState) (empId shiftId : String) : String × List Assignment :=
  match findEmployee st.employees empId with
  | none => ("Employee does not exist", st.assignments)
  | some _ =>
    match findShift st.shifts shiftId with
    | none => ("Shift does not exist", st.assignments)
    | some shift =>
      match findAssignment st.assignments empId shiftId with
      | some _ => ("Employee already assigned to shift", st.assignments)
      | none =>
        match st.maxDailyHours with
        | JsNum.nan =>
          ("Invalid config: maxDailyHours must be a positive number", st.assignments)
        | JsNum.num maxDailyHours =>
          if maxDailyHours ≤ 0 then
            ("Invalid config: maxDailyHours must be a positive number", st.assignments)
          else
            match getShiftMinutes shift.startTime shift.endTime with
            | JsNum.nan => ("Invalid shift time format", st.assignments)
            | JsNum.num newShiftMinutes =>
              if newShiftMinutes ≤ 0 then
                ("Invalid shift time format", st.assignments)
              else
                match sumSameDayMinutes
                    (getEmployeeShifts st.assignments st.shifts empId) shift.date 0 with
                | none => ("Invalid shift time format", st.assignments)
                | some scheduledMinutesForDate =>
                  if ((⌊maxDailyHours * 60⌋ : ℤ) : ℚ) <
                      scheduledMinutesForDate + newShiftMinutes then
                    ("Cannot assign shift: maxDailyHours limit would be exceeded.",
                      st.assignments)
                  else
                    ("Ok", addAssignment st.assignments empId shiftId)

/-! ## Assignment3: web edit handler (`app.js`) and sorted schedule
(`business.js`) -/

/-- Mongo `updateOne` with filter `{employeeId: empId}` and
`$set {name, phone}`: update the first matching document, if any. -/
def updateEmployee (employees : List Employee) (empId name phone : String) :
    List Employee :=
  match employees with
  | [] => []
  | e :: rest =>
    if e.employeeId == empId then { e with name := name, phone := phone } :: rest
    else e :: updateEmployee rest empId name phone

/-- An HTTP response of the Assignment3 web app, as far as the verified
routes distinguish them. -/
inductive WebResponse where
  | redirect : String → WebResponse
  | inlineText : String → WebResponse
  | notFound : String → WebResponse
deriving DecidableEq

/-- The regular expression `^[0-9]{4}-[0-9]{4}$`. -/
def phoneOk (s : String) : Bool :=
  match s.data with
  | [a, b, c, d, dash, e, f, g, h] =>
    a.isDigit && b.isDigit && c.isDigit && d.isDigit && dash == '-' &&
      e.isDigit && f.isDigit && g.isDigit && h.isDigit
  | _ => false

/-- The `POST /employees/:id/edit` handler: coerce missing form fields
to `""`, trim, validate the name and the phone, and on success update
the employee and redirect to the landing page (PRG).  The handler never
looks the employee up. -/
def postEditEmployee (employees : List Employee) (empId : String)
    (nameField phoneField : Option String) : WebResponse × List Employee :=
  let name := jsTrim (nameField.getD "")
  let phone := jsTrim (phoneField.getD "")
  if name.data.length = 0 then
    (WebResponse.inlineText "Validation failed: Name must be non-empty", employees)
  else if !(phoneOk phone) then
    (WebResponse.inlineText "Validation failed: Phone must be 4 digits, a dash, then 4 digits",
      employees)
  else
    (WebResponse.redirect "/", updateEmployee employees empId name phone)

/-- The `GET /employees/:id` and `GET /employees/:id/edit` handlers both
begin with a 404 guard; only their render payload differs, which we do
not model. -/
def getEmployeePage (employees : List Employee) (empId : String) : WebResponse :=
  match findEmployee employees empId with
  | none => WebResponse.notFound "Employee not found"
  | some _ => WebResponse.redirect ""

/-- The sort key of the bubble sort in `getScheduleForEmployeeSorted`:
`a.date + " " + a.startTime`. -/
def shiftKey (s : Shift) : String :=
  s.date ++ " " ++ s.startTime

/-- One pass of the inner loop (`j` from 0 to length−2, swapping
adjacent elements when `aKey > bKey`). -/
def bubblePass : List Shift → List Shift
  | [] => []
  | [a] => [a]
  | a :: b :: rest =>
    if shiftKey b < shiftKey a then b :: bubblePass (a :: rest)
    else a :: bubblePass (b :: rest)
termination_by l => l.length

/-- Model of `getScheduleForEmployeeSorted(empId)`: run the inner pass once per
outer-loop iteration (`i` from 0 to length−1). -/
def getScheduleForEmployeeSorted (assignments : List Assignment) (shifts : List Shift)
    (empId : String) : List Shift :=
  let s := getEmployeeShifts assignments shifts empId
  bubblePass^[s.length] s

/-! ## Arithmetic facts about the time utility -/

/-- Successful `toMinutes` results are integers in `[0, 1439]`. -/
theorem toMinutes_int_range (s : String) (q : ℚ) (h : toMinutes s = JsNum.num q) :
    (∃ n : ℤ, q = (n : ℤ)) ∧ 0 ≤ q ∧ q ≤ 1439 := by
  unfold toMinutes at h
  split at h
  · cases h
  split at h
  · cases h
  split at h
  · rename_i A B hA hB
    split at h
    · cases h
    split at h
    · cases h
    rename_i hden hrange
    push_neg at hden hrange
    obtain ⟨hd1, hd2⟩ := hden
    obtain ⟨hA0, hA23, hB0, hB59⟩ := hrange
    injection h with h
    refine ⟨⟨A.num * 60 + B.num, ?_⟩, ?_, ?_⟩
    · rw [← h]
      push_cast [Rat.coe_int_num_of_den_eq_one hd1, Rat.coe_int_num_of_den_eq_one hd2]
      ring
    · rw [← h]; linarith
    · rw [← h]; linarith
  · cases h

/-- Duration of a shift when both endpoints parse. -/
theorem getShiftMinutes_eq_of (s e : String) (a b : ℚ)
    (ha : toMinutes s = JsNum.num a) (hb : toMinutes e = JsNum.num b) :
    getShiftMinutes s e = JsNum.num ((if b < a then b + 24 * 60 else b) - a) := by
  unfold getShiftMinutes
  rw [ha, hb]

/-- The function `getShiftMinutes` propagates the NaN sentinel. -/
theorem getShiftMinutes_nan_of (s e : String)
    (h : toMinutes s = JsNum.nan ∨ toMinutes e = JsNum.nan) :
    getShiftMinutes s e = JsNum.nan := by
  unfold getShiftMinutes
  rcases h with h | h
  · rw [h]
  · rw [h]
    cases toMinutes s <;> rfl

/-- A finite `getShiftMinutes` result is an integer in `[0, 1439]`, and
it is zero exactly when the two endpoints denote the same minute. -/
theorem getShiftMinutes_int_range (s e : String) (q : ℚ)
    (h : getShiftMinutes s e = JsNum.num q) :
    (∃ n : ℤ, q = (n : ℤ)) ∧ 0 ≤ q ∧ q ≤ 1439 ∧
      (q = 0 ↔ ∃ a, toMinutes s = JsNum.num a ∧ toMinutes e = JsNum.num a) := by
  unfold getShiftMinutes at h
  split at h
  · rename_i a b ha hb
    obtain ⟨⟨na, hna⟩, ha0, ha1439⟩ := toMinutes_int_range s a ha
    obtain ⟨⟨nb, hnb⟩, hb0, hb1439⟩ := toMinutes_int_range e b hb
    injection h with h
    by_cases hlt : b < a
    · rw [if_pos hlt] at h
      have hint : nb < na := by
        rw [hna, hnb] at hlt
        exact_mod_cast hlt
      have hint' : (nb : ℚ) + 1 ≤ (na : ℚ) := by exact_mod_cast hint
      refine ⟨⟨nb + 24 * 60 - na, by rw [← h, hna, hnb]; push_cast; ring⟩,
        by rw [← h]; linarith, by rw [← h, hna, hnb]; linarith, ?_⟩
      constructor
      · intro h0
        rw [← h] at h0
        linarith
      · rintro ⟨c, hc, hc'⟩
        rw [hc] at ha
        rw [hc'] at hb
        injection ha with ha
        injection hb with hb
        rw [← ha, ← hb] at hlt
        exact absurd hlt (lt_irrefl c)
    · rw [if_neg hlt] at h
      push_neg at hlt
      refine ⟨⟨nb - na, by rw [← h, hna, hnb]; push_cast; ring⟩,
        by rw [← h]; linarith, by rw [← h]; linarith, ?_⟩
      constructor
      · intro h0
        rw [← h] at h0
        have hab : a = b := by linarith
        exact ⟨a, ha, by rw [hb, hab]⟩
      · rintro ⟨c, hc, hc'⟩
        rw [hc] at ha
        rw [hc'] at hb
        injection ha with ha
        injection hb with hb
        rw [← h, ← ha, ← hb]
        ring
  · cases h

/-- The same-day loop preserves integrality of the accumulator. -/
theorem sumSameDayMinutes_int (scheduled : List Shift) (date : String) (acc t : ℚ)
    (hacc : ∃ n : ℤ, acc = (n : ℤ))
    (h : sumSameDayMinutes scheduled date acc = some t) :
    ∃ n : ℤ, t = (n : ℤ) := by
  induction scheduled generalizing acc with
  | nil =>
    unfold sumSameDayMinutes at h
    injection h with h
    exact h ▸ hacc
  | cons s rest ih =>
    unfold sumSameDayMinutes at h
    split at h
    · split at h
      · cases h
      rename_i m hm
      split at h
      · cases h
      obtain ⟨nm, hnm⟩ := (getShiftMinutes_int_range s.startTime s.endTime m hm).1
      obtain ⟨na, hna⟩ := hacc
      exact ih (acc + m) ⟨na + nm, by rw [hna, hnm]; push_cast; ring⟩ h
    · exact ih acc hacc h

/-! ## Branch lemmas for the `assignShift` cascade -/

/-- Check 1: nonexistent employee. -/
theorem assignShift_emp_none (st : SchedState) (empId shiftId : String)
    (hE : findEmployee st.employees empId = none) :
    assignShift st empId shiftId = ("Employee does not exist", st.assignments) := by
  unfold assignShift
  rw [hE]

/-- Check 2: nonexistent shift. -/
theorem assignShift_shift_none (st : SchedState) (empId shiftId : String)
    (emp : Employee) (hE : findEmployee st.employees empId = some emp)
    (hS : findShift st.shifts shiftId = none) :
    assignShift st empId shiftId = ("Shift does not exist", st.assignments) := by
  unfold assignShift
  rw [hE, hS]

/-- Check 3: duplicate assignment. -/
theorem assignShift_dup (st : SchedState) (empId shiftId : String)
    (emp : Employee) (shift : Shift) (a : Assignment)
    (hE : findEmployee st.employees empId = some emp)
    (hS : findShift st.shifts shiftId = some shift)
    (hD : findAssignment st.assignments empId shiftId = some a) :
    assignShift st empId shiftId = ("Employee already assigned to shift", st.assignments) := by
  unfold assignShift
  rw [hE, hS, hD]

/-- Check 4a: non-finite config. -/
theorem assignShift_cfg_nan (st : SchedState) (empId shiftId : String)
    (emp : Employee) (shift : Shift)
    (hE : findEmployee st.employees empId = some emp)
    (hS : findShift st.shifts shiftId = some shift)
    (hD : findAssignment st.assignments empId shiftId = none)
    (hC : st.maxDailyHours = JsNum.nan) :
    assignShift st empId shiftId =
      ("Invalid config: maxDailyHours must be a positive number", st.assignments) := by
  unfold assignShift
  rw [hE, hS, hD, hC]

/-- Check 4b: non-positive config. -/
theorem assignShift_cfg_nonpos (st : SchedState) (empId shiftId : String)
    (emp : Employee) (shift : Shift) (v : ℚ)
    (hE : findEmployee st.employees empId = some emp)
    (hS : findShift st.shifts shiftId = some shift)
    (hD : findAssignment st.assignments empId shiftId = none)
    (hC : st.maxDailyHours = JsNum.num v) (hv : v ≤ 0) :
    assignShift st empId shiftId =
      ("Invalid config: maxDailyHours must be a positive number", st.assignments) := by
  unfold assignShift
  rw [hE, hS, hD, hC]
  simp only [if_pos hv]

/-- Check 5a: the new shift's duration is the NaN sentinel. -/
theorem assignShift_dur_nan (st : SchedState) (empId shiftId : String)
    (emp : Employee) (shift : Shift) (v : ℚ)
    (hE : findEmployee st.employees empId = some emp)
    (hS : findShift st.shifts shiftId = some shift)
    (hD : findAssignment st.assignments empId shiftId = none)
    (hC : st.maxDailyHours = JsNum.num v) (hv : 0 < v)
    (hG : getShiftMinutes shift.startTime shift.endTime = JsNum.nan) :
    assignShift st empId shiftId = ("Invalid shift time format", st.assignments) := by
  unfold assignShift
  rw [hE, hS, hD, hC]
  simp only [if_neg (not_le.mpr hv)]
  rw [hG]

/-- Check 5b: the new shift's duration is not positive. -/
theorem assignShift_dur_nonpos (st : SchedState) (empId shiftId : String)
    (emp : Employee) (shift : Shift) (v d : ℚ)
    (hE : findEmployee st.employees empId = some emp)
    (hS : findShift st.shifts shiftId = some shift)
    (hD : findAssignment st.assignments empId shiftId = none)
    (hC : st.maxDailyHours = JsNum.num v) (hv : 0 < v)
    (hG : getShiftMinutes shift.startTime shift.endTime = JsNum.num d) (hd : d ≤ 0) :
    assignShift st empId shiftId = ("Invalid shift time format", st.assignments) := by
  unfold assignShift
  rw [hE, hS, hD, hC]
  simp only [if_neg (not_le.mpr hv)]
  rw [hG]
  simp only [if_pos hd]

/-- Check 6a: corrupted time data among the already-scheduled same-day
shifts. -/
theorem assignShift_sum_none (st : SchedState) (empId shiftId : String)
    (emp : Employee) (shift : Shift) (v d : ℚ)
    (hE : findEmployee st.employees empId = some emp)
    (hS : findShift st.shifts shiftId = some shift)
    (hD : findAssignment st.assignments empId shiftId = none)
    (hC : st.maxDailyHours = JsNum.num v) (hv : 0 < v)
    (hG : getShiftMinutes shift.startTime shift.endTime = JsNum.num d) (hd : 0 < d)
    (hSum : sumSameDayMinutes (getEmployeeShifts st.assignments st.shifts empId)
      shift.date 0 = none) :
    assignShift st empId shiftId = ("Invalid shift time format", st.assignments) := by
  unfold assignShift
  rw [hE, hS, hD, hC]
  simp only [if_neg (not_le.mpr hv)]
  rw [hG]
  simp only [if_neg (not_le.mpr hd)]
  rw [hSum]

/-- Check 6b: the daily cap is exceeded. -/
theorem assignShift_over (st : SchedState) (empId shiftId : String)
    (emp : Employee) (shift : Shift) (v d total : ℚ)
    (hE : findEmployee st.employees empId = some emp)
    (hS : findShift st.shifts shiftId = some shift)
    (hD : findAssignment st.assignments empId shiftId = none)
    (hC : st.maxDailyHours = JsNum.num v) (hv : 0 < v)
    (hG : getShiftMinutes shift.startTime shift.endTime = JsNum.num d) (hd : 0 < d)
    (hSum : sumSameDayMinutes (getEmployeeShifts st.assignments st.shifts empId)
      shift.date 0 = some total)
    (hOver : ((⌊v * 60⌋ : ℤ) : ℚ) < total + d) :
    assignShift st empId shiftId =
      ("Cannot assign shift: maxDailyHours limit would be exceeded.", st.assignments) := by
  unfold assignShift
  rw [hE, hS, hD, hC]
  simp only [if_neg (not_le.mpr hv)]
  rw [hG]
  simp only [if_neg (not_le.mpr hd)]
  rw [hSum]
  simp only [if_pos hOver]

/-- Success: every check passes and the new record is appended. -/
theorem assignShift_ok (st : SchedState) (empId shiftId : String)
    (emp : Employee) (shift : Shift) (v d total : ℚ)
    (hE : findEmployee st.employees empId = some emp)
    (hS : findShift st.shifts shiftId = some shift)
    (hD : findAssignment st.assignments empId shiftId = none)
    (hC : st.maxDailyHours = JsNum.num v) (hv : 0 < v)
    (hG : getShiftMinutes shift.startTime shift.endTime = JsNum.num d) (hd : 0 < d)
    (hSum : sumSameDayMinutes (getEmployeeShifts st.assignments st.shifts empId)
      shift.date 0 = some total)
    (hOk : total + d ≤ ((⌊v * 60⌋ : ℤ) : ℚ)) :
    assignShift st empId shiftId = ("Ok", addAssignment st.assignments empId shiftId) := by
  unfold assignShift
  rw [hE, hS, hD, hC]
  simp only [if_neg (not_le.mpr hv)]
  rw [hG]
  simp only [if_neg (not_le.mpr hd)]
  rw [hSum]
  simp only [if_neg (not_lt.mpr hOk)]

/-- Exhaustive case analysis: a call either succeeds — appending exactly
the new pair, which was not yet assigned — or fails with a message other
than "Ok" and leaves the assignments unchanged. -/
theorem assignShift_cases (st : SchedState) (empId shiftId : String) :
    (assignShift st empId shiftId
        = ("Ok", addAssignment st.assignments empId shiftId)
      ∧ findAssignment st.assignments empId shiftId = none) ∨
    ((assignShift st empId shiftId).1 ≠ "Ok"
      ∧ (assignShift st empId shiftId).2 = st.assignments) := by
  cases hE : findEmployee st.employees empId with
  | none =>
    right
    rw [assignShift_emp_none st empId shiftId hE]
    exact ⟨by simp, rfl⟩
  | some emp =>
    cases hS : findShift st.shifts shiftId with
    | none =>
      right
      rw [assignShift_shift_none st empId shiftId emp hE hS]
      exact ⟨by simp, rfl⟩
    | some shift =>
      cases hD : findAssignment st.assignments empId shiftId with
      | some a =>
        right
        rw [assignShift_dup st empId shiftId emp shift a hE hS hD]
        exact ⟨by simp, rfl⟩
      | none =>
        cases hC : st.maxDailyHours with
        | nan =>
          right
          rw [assignShift_cfg_nan st empId shiftId emp shift hE hS hD hC]
          exact ⟨by simp, rfl⟩
        | num v =>
          rcases le_or_lt v 0 with hv | hv
          · right
            rw [assignShift_cfg_nonpos st empId shiftId emp shift v hE hS hD hC hv]
            exact ⟨by simp, rfl⟩
          · cases hG : getShiftMinutes shift.startTime shift.endTime with
            | nan =>
              right
              rw [assignShift_dur_nan st empId shiftId emp shift v hE hS hD hC hv hG]
              exact ⟨by simp, rfl⟩
            | num d =>
              rcases le_or_lt d 0 with hd | hd
              · right
                rw [assignShift_dur_nonpos st empId shiftId emp shift v d
                  hE hS hD hC hv hG hd]
                exact ⟨by simp, rfl⟩
              · cases hSum : sumSameDayMinutes
                    (getEmployeeShifts st.assignments st.shifts empId) shift.date 0 with
                | none =>
                  right
                  rw [assignShift_sum_none st empId shiftId emp shift v d
                    hE hS hD hC hv hG hd hSum]
                  exact ⟨by simp, rfl⟩
                | some total =>
                  rcases lt_or_le ((⌊v * 60⌋ : ℤ) : ℚ) (total + d) with hO | hO
                  · right
                    rw [assignShift_over st empId shiftId emp shift v d total
                      hE hS hD hC hv hG hd hSum hO]
                    exact ⟨by simp, rfl⟩
                  · left
                    exact ⟨assignShift_ok st empId shiftId emp shift v d total
                      hE hS hD hC hv hG hd hSum hO, rfl⟩

/-! ## Bubble sort correctness -/

/-- One pass permutes the list. -/
theorem bubblePass_perm (l : List Shift) : (bubblePass l).Perm l := by
  induction l using bubblePass.induct with
  | case1 => simp [bubblePass]
  | case2 a => simp [bubblePass]
  | case3 a b rest hlt ih =>
    simp only [bubblePass, if_pos hlt]
    exact (ih.cons b).trans (List.Perm.swap a b rest)
  | case4 a b rest hlt ih =>
    simp only [bubblePass, if_neg hlt]
    exact ih.cons a

/-- One pass over a non-empty list puts an upper bound of the whole list
in the final position. -/
theorem bubblePass_last (l : List Shift) (hne : l ≠ []) :
    ∃ ys M, bubblePass l = ys ++ [M] ∧ ∀ x ∈ l, shiftKey x ≤ shiftKey M := by
  induction l using bubblePass.induct with
  | case1 => exact absurd rfl hne
  | case2 a =>
    refine ⟨[], a, by simp [bubblePass], ?_⟩
    intro x hx
    rw [List.mem_singleton] at hx
    exact le_of_eq (by rw [hx])
  | case3 a b rest hlt ih =>
    obtain ⟨ys, M, hys, hM⟩ := ih (by simp)
    refine ⟨b :: ys, M, ?_, ?_⟩
    · simp only [bubblePass, if_pos hlt, hys, List.cons_append]
    · intro x hx
      rcases List.mem_cons.mp hx with hxa | hx2
      · exact hxa ▸ hM a (List.mem_cons_self a rest)
      rcases List.mem_cons.mp hx2 with hxb | hxr
      · exact hxb ▸ le_of_lt (lt_of_lt_of_le hlt (hM a (List.mem_cons_self a rest)))
      · exact hM x (List.mem_cons_of_mem a hxr)
  | case4 a b rest hlt ih =>
    obtain ⟨ys, M, hys, hM⟩ := ih (by simp)
    refine ⟨a :: ys, M, ?_, ?_⟩
    · simp only [bubblePass, if_neg hlt, hys, List.cons_append]
    · intro x hx
      rcases List.mem_cons.mp hx with hxa | hx2
      · exact hxa ▸ le_trans (not_lt.mp hlt) (hM b (List.mem_cons_self b rest))
      · exact hM x hx2

/-- A pass leaves a final upper-bound element in place. -/
theorem bubblePass_append_max (M : Shift) :
    ∀ ys : List Shift, (∀ x ∈ ys, shiftKey x ≤ shiftKey M) →
      bubblePass (ys ++ [M]) = bubblePass ys ++ [M] := by
  intro ys
  induction ys using bubblePass.induct with
  | case1 =>
    intro _
    simp [bubblePass]
  | case2 a =>
    intro hM
    have hnlt : ¬ shiftKey M < shiftKey a := not_lt.mpr (hM a (by simp))
    simp [bubblePass, hnlt]
  | case3 a b rest hlt ih =>
    intro hM
    have hsub : ∀ x ∈ a :: rest, shiftKey x ≤ shiftKey M := by
      intro x hx
      rcases List.mem_cons.mp hx with hxa | hxr
      · exact hxa ▸ hM a (List.mem_cons_self a (b :: rest))
      · exact hM x (List.mem_cons_of_mem a (List.mem_cons_of_mem b hxr))
    calc bubblePass ((a :: b :: rest) ++ [M])
        = b :: bubblePass ((a :: rest) ++ [M]) := by
          simp only [List.cons_append, bubblePass, if_pos hlt]
      _ = b :: (bubblePass (a :: rest) ++ [M]) := by rw [ih hsub]
      _ = bubblePass (a :: b :: rest) ++ [M] := by
          simp only [bubblePass, if_pos hlt, List.cons_append]
  | case4 a b rest hlt ih =>
    intro hM
    have hsub : ∀ x ∈ b :: rest, shiftKey x ≤ shiftKey M :=
      fun x hx => hM x (List.mem_cons_of_mem a hx)
    calc bubblePass ((a :: b :: rest) ++ [M])
        = a :: bubblePass ((b :: rest) ++ [M]) := by
          simp only [List.cons_append, bubblePass, if_neg hlt]
      _ = a :: (bubblePass (b :: rest) ++ [M]) := by rw [ih hsub]
      _ = bubblePass (a :: b :: rest) ++ [M] := by
          simp only [bubblePass, if_neg hlt, List.cons_append]

/-- Iterated passes permute the list. -/
theorem bubblePass_iterate_perm (n : ℕ) (l : List Shift) :
    (bubblePass^[n] l).Perm l := by
  induction n generalizing l with
  | zero => simp
  | succ n ih =>
    rw [Function.iterate_succ_apply]
    exact (ih (bubblePass l)).trans (bubblePass_perm l)

/-- Iterated passes leave a final upper-bound element in place. -/
theorem bubblePass_iterate_append_max (M : Shift) (n : ℕ) :
    ∀ ys : List Shift, (∀ x ∈ ys, shiftKey x ≤ shiftKey M) →
      bubblePass^[n] (ys ++ [M]) = bubblePass^[n] ys ++ [M] := by
  induction n with
  | zero => intro ys _; simp
  | succ n ih =>
    intro ys hM
    rw [Function.iterate_succ_apply, Function.iterate_succ_apply,
      bubblePass_append_max M ys hM]
    exact ih (bubblePass ys) (fun x hx => hM x ((bubblePass_perm ys).mem_iff.mp hx))

/-- As many passes as there are elements sort the list. -/
theorem bubblePass_iterate_sorted (n : ℕ) :
    ∀ l : List Shift, l.length = n →
      List.Sorted (fun x y => shiftKey x ≤ shiftKey y) (bubblePass^[n] l) := by
  induction n with
  | zero =>
    intro l hl
    rw [List.length_eq_zero] at hl
    subst hl
    simp
  | succ n ih =>
    intro l hl
    have hne : l ≠ [] := by
      intro h
      subst h
      simp at hl
    obtain ⟨ys, M, hys, hM⟩ := bubblePass_last l hne
    have hlen : ys.length = n := by
      have hp : (bubblePass l).length = l.length := (bubblePass_perm l).length_eq
      rw [hys, List.length_append, List.length_singleton, hl] at hp
      omega
    have hMys : ∀ x ∈ ys, shiftKey x ≤ shiftKey M := by
      intro x hx
      apply hM
      have hx' : x ∈ ys ++ [M] := List.mem_append_left _ hx
      rw [← hys] at hx'
      exact (bubblePass_perm l).mem_iff.mp hx'
    rw [Function.iterate_succ_apply, hys, bubblePass_iterate_append_max M n ys hMys]
    refine List.pairwise_append.mpr ⟨ih ys hlen, by simp, ?_⟩
    intro x hx y hy
    rw [List.mem_singleton] at hy
    subst hy
    exact hMys x ((bubblePass_iterate_perm n ys).mem_iff.mp hx)

/-- The lookup `findAssignment` misses exactly when the pair is not present. -/
theorem findAssignment_none_iff (l : List Assignment) (e s : String) :
    findAssignment l e s = none ↔
      (e, s) ∉ l.map (fun a => (a.employeeId, a.shiftId)) := by
  unfold findAssignment
  rw [List.find?_eq_none]
  constructor
  · rintro h hmem
    obtain ⟨a, ha, hpair⟩ := List.mem_map.mp hmem
    have := h a ha
    rw [Prod.mk.injEq] at hpair
    simp [hpair.1, hpair.2] at this
  · intro h a ha
    by_contra hcon
    rw [Bool.and_eq_true, beq_iff_eq, beq_iff_eq] at hcon
    exact h (List.mem_map.mpr ⟨a, ha, by rw [hcon.1, hcon.2]⟩)

/-- The normalized `maxDailyHours` is always positive. -/
theorem readSettings_pos (raw : JsNum) : 0 < readSettings raw := by
  cases raw with
  | nan => norm_num [readSettings]
  | num v =>
    show (0 : ℚ) < if v ≤ 0 then 8 else v
    by_cases h : v ≤ 0
    · rw [if_pos h]
      norm_num
    · rw [if_neg h]
      exact lt_of_not_le h

/-! ## Claim theorems -/

/-- A concrete employee record used by several witnesses. -/
def exEmployee : Employee :=
  { employeeId := "E001", name := "Alice", phone := "1234-5678" }

/-- A concrete 8-hour shift record used by several witnesses. -/
def exShift : Shift :=
  { shiftId := "S001", date := "2026-01-01", startTime := "09:00", endTime := "17:00" }

/-- A concrete state (one employee, one 8-hour shift, nothing assigned,
`maxDailyHours = 8`) used by several witnesses. -/
def exState : SchedState :=
  { employees := [exEmployee], shifts := [exShift], assignments := [],
    maxDailyHours := JsNum.num 8 }

/-- C1: for every state passing the earlier checks (employee and shift
exist, pair not yet assigned, finite positive config, valid positive new
duration, every same-day scheduled duration valid, summing to `total`),
`assignShift` rejects without persisting exactly when `total` plus the
new duration exceeds `maxDailyHours * 60`, and returns "Ok" otherwise —
in particular when the sum equals the cap exactly. -/
theorem assignShift_daily_cap (st : SchedState) (empId shiftId : String)
    (emp : Employee) (shift : Shift) (v d total : ℚ)
    (hE : findEmployee st.employees empId = some emp)
    (hS : findShift st.shifts shiftId = some shift)
    (hD : findAssignment st.assignments empId shiftId = none)
    (hC : st.maxDailyHours = JsNum.num v) (hv : 0 < v)
    (hG : getShiftMinutes shift.startTime shift.endTime = JsNum.num d) (hd : 0 < d)
    (hSum : sumSameDayMinutes (getEmployeeShifts st.assignments st.shifts empId)
      shift.date 0 = some total) :
    (assignShift st empId shiftId
        = ("Cannot assign shift: maxDailyHours limit would be exceeded.", st.assignments)
      ↔ v * 60 < total + d) ∧
    (total + d ≤ v * 60 →
      assignShift st empId shiftId = ("Ok", addAssignment st.assignments empId shiftId)) := by
  obtain ⟨nt, hnt⟩ := sumSameDayMinutes_int _ _ 0 total ⟨0, by norm_num⟩ hSum
  obtain ⟨nd, hnd⟩ := (getShiftMinutes_int_range _ _ _ hG).1
  have htd : total + d = ((nt + nd : ℤ) : ℚ) := by
    rw [hnt, hnd]
    push_cast
    ring
  have hiff : (((⌊v * 60⌋ : ℤ) : ℚ) < total + d) ↔ (v * 60 < total + d) := by
    rw [htd, Int.cast_lt, Int.floor_lt]
  constructor
  · constructor
    · intro hres
      by_contra hnot
      push_neg at hnot
      have hle : total + d ≤ ((⌊v * 60⌋ : ℤ) : ℚ) :=
        not_lt.mp (fun hc => absurd (hiff.mp hc) (not_lt.mpr hnot))
      rw [assignShift_ok st empId shiftId emp shift v d total
        hE hS hD hC hv hG hd hSum hle] at hres
      simp at hres
    · intro hlt
      exact assignShift_over st empId shiftId emp shift v d total
        hE hS hD hC hv hG hd hSum (hiff.mpr hlt)
  · intro hle
    refine assignShift_ok st empId shiftId emp shift v d total hE hS hD hC hv hG hd hSum ?_
    exact not_lt.mp (fun hc => absurd (hiff.mp hc) (not_lt.mpr hle))

/-- Witness for C1: in the concrete state the 8-hour shift lands exactly
on the 8-hour cap (480 = 480) and the call succeeds. -/
theorem assignShift_daily_cap_witness :
    assignShift exState "E001" "S001"
      = ("Ok", [{ employeeId := "E001", shiftId := "S001" }]) :=
  (assignShift_daily_cap exState "E001" "S001" exEmployee exShift 8 480 0
    (by with_unfolding_all rfl) (by with_unfolding_all rfl) (by with_unfolding_all rfl)
    (by with_unfolding_all rfl) (by with_unfolding_all decide)
    (by with_unfolding_all rfl) (by with_unfolding_all decide)
    (by with_unfolding_all rfl)).2 (by with_unfolding_all decide)

/-- C2: the six validation checks run in order, short-circuiting on the
first failure with its own message; the six failure messages are pairwise
distinct, and a nonexistent employee or shift is rejected whatever the
shift time data contain — no duration is ever inspected on those paths. -/
theorem assignShift_sequential_checks (st : SchedState) (empId shiftId : String) :
    (findEmployee st.employees empId = none →
      assignShift st empId shiftId = ("Employee does not exist", st.assignments)) ∧
    (∀ emp, findEmployee st.employees empId = some emp →
      findShift st.shifts shiftId = none →
      assignShift st empId shiftId = ("Shift does not exist", st.assignments)) ∧
    (∀ emp shift a, findEmployee st.employees empId = some emp →
      findShift st.shifts shiftId = some shift →
      findAssignment st.assignments empId shiftId = some a →
      assignShift st empId shiftId
        = ("Employee already assigned to shift", st.assignments)) ∧
    (∀ emp shift, findEmployee st.employees empId = some emp →
      findShift st.shifts shiftId = some shift →
      findAssignment st.assignments empId shiftId = none →
      (st.maxDailyHours = JsNum.nan ∨ ∃ v, st.maxDailyHours = JsNum.num v ∧ v ≤ 0) →
      assignShift st empId shiftId
        = ("Invalid config: maxDailyHours must be a positive number", st.assignments)) ∧
    (∀ emp shift v, findEmployee st.employees empId = some emp →
      findShift st.shifts shiftId = some shift →
      findAssignment st.assignments empId shiftId = none →
      st.maxDailyHours = JsNum.num v → 0 < v →
      (getShiftMinutes shift.startTime shift.endTime = JsNum.nan ∨
        ∃ d, getShiftMinutes shift.startTime shift.endTime = JsNum.num d ∧ d ≤ 0) →
      assignShift st empId shiftId = ("Invalid shift time format", st.assignments)) ∧
    (∀ emp shift v d total, findEmployee st.employees empId = some emp →
      findShift st.shifts shiftId = some shift →
      findAssignment st.assignments empId shiftId = none →
      st.maxDailyHours = JsNum.num v → 0 < v →
      getShiftMinutes shift.startTime shift.endTime = JsNum.num d → 0 < d →
      sumSameDayMinutes (getEmployeeShifts st.assignments st.shifts empId)
        shift.date 0 = some total →
      ((⌊v * 60⌋ : ℤ) : ℚ) < total + d →
      assignShift st empId shiftId
        = ("Cannot assign shift: maxDailyHours limit would be exceeded.",
          st.assignments)) ∧
    List.Pairwise (fun x y => x ≠ y)
      ["Employee does not exist", "Shift does not exist",
        "Employee already assigned to shift",
        "Invalid config: maxDailyHours must be a positive number",
        "Invalid shift time format",
        "Cannot assign shift: maxDailyHours limit would be exceeded."] := by
  refine ⟨fun hE => assignShift_emp_none st empId shiftId hE,
    fun emp hE hS => assignShift_shift_none st empId shiftId emp hE hS,
    fun emp shift a hE hS hD => assignShift_dup st empId shiftId emp shift a hE hS hD,
    ?_, ?_, ?_, by decide⟩
  · rintro emp shift hE hS hD (hC | ⟨v, hC, hv⟩)
    · exact assignShift_cfg_nan st empId shiftId emp shift hE hS hD hC
    · exact assignShift_cfg_nonpos st empId shiftId emp shift v hE hS hD hC hv
  · rintro emp shift v hE hS hD hC hv (hG | ⟨d, hG, hd⟩)
    · exact assignShift_dur_nan st empId shiftId emp shift v hE hS hD hC hv hG
    · exact assignShift_dur_nonpos st empId shiftId emp shift v d hE hS hD hC hv hG hd
  · intro emp shift v d total hE hS hD hC hv hG hd hSum hOver
    exact assignShift_over st empId shiftId emp shift v d total hE hS hD hC hv hG hd hSum hOver

/-- A shift whose time strings are garbage, for the C2 witness. -/
def exBadShift : Shift :=
  { shiftId := "S001", date := "d", startTime := "zz", endTime := "yy" }

/-- A state with no employees but a garbage shift, for the C2 witness. -/
def exEmptyState : SchedState :=
  { employees := [], shifts := [exBadShift], assignments := [],
    maxDailyHours := JsNum.nan }

/-- Witness for C2: with an empty employee table the call stops at check
1 even though the state's only shift carries garbage time strings. -/
theorem assignShift_sequential_checks_witness :
    assignShift exEmptyState "E001" "S001" = ("Employee does not exist", []) :=
  (assignShift_sequential_checks exEmptyState "E001" "S001").1
    (by with_unfolding_all rfl)

/-- C3: a pair that already exists is rejected at check 3 with the
"already assigned" message and nothing is added; a successful call
appends a pair that was previously absent; and at-most-once occurrence
of every (employeeId, shiftId) pair is preserved by every call. -/
theorem assignShift_pair_unique (st : SchedState) (empId shiftId : String) :
    (∀ emp shift a, findEmployee st.employees empId = some emp →
      findShift st.shifts shiftId = some shift →
      findAssignment st.assignments empId shiftId = some a →
      assignShift st empId shiftId
        = ("Employee already assigned to shift", st.assignments)) ∧
    ((assignShift st empId shiftId).1 = "Ok" →
      findAssignment st.assignments empId shiftId = none ∧
      (assignShift st empId shiftId).2
        = st.assignments ++ [{ employeeId := empId, shiftId := shiftId }]) ∧
    ((∀ p : String × String,
        (st.assignments.map (fun a => (a.employeeId, a.shiftId))).count p ≤ 1) →
      ∀ p : String × String,
        ((assignShift st empId shiftId).2.map
          (fun a => (a.employeeId, a.shiftId))).count p ≤ 1) := by
  refine ⟨fun emp shift a hE hS hD =>
    assignShift_dup st empId shiftId emp shift a hE hS hD, ?_, ?_⟩
  · intro hOk
    rcases assignShift_cases st empId shiftId with ⟨hok, hD⟩ | ⟨hne, _⟩
    · rw [hok]
      exact ⟨hD, rfl⟩
    · exact absurd hOk hne
  · intro hcount p
    rcases assignShift_cases st empId shiftId with ⟨hok, hD⟩ | ⟨_, heq⟩
    · rw [hok]
      show ((addAssignment st.assignments empId shiftId).map
        (fun a => (a.employeeId, a.shiftId))).count p ≤ 1
      unfold addAssignment
      rw [List.map_append, List.count_append]
      by_cases hp : p = (empId, shiftId)
      · have hnot : (empId, shiftId) ∉
            st.assignments.map (fun a => (a.employeeId, a.shiftId)) :=
          (findAssignment_none_iff st.assignments empId shiftId).mp hD
        rw [hp, List.count_eq_zero.mpr hnot]
        simp
      · calc (st.assignments.map (fun a => (a.employeeId, a.shiftId))).count p
              + (([({ employeeId := empId, shiftId := shiftId } :
                Assignment)]).map (fun a => (a.employeeId, a.shiftId))).count p
            ≤ (st.assignments.map (fun a => (a.employeeId, a.shiftId))).count p
              + 0 := by
              simp [List.count_singleton, hp]
          _ ≤ 1 := by simpa using hcount p
    · rw [heq]
      exact hcount p

/-- A state where E001 is already assigned S001, for the C3 witness. -/
def exDupState : SchedState :=
  { employees := [exEmployee], shifts := [exShift],
    assignments := [{ employeeId := "E001", shiftId := "S001" }],
    maxDailyHours := JsNum.num 8 }

/-- Witness for C3: re-assigning an existing pair is rejected with the
"already assigned" message and the collection is unchanged. -/
theorem assignShift_pair_unique_witness :
    assignShift exDupState "E001" "S001"
      = ("Employee already assigned to shift",
        [{ employeeId := "E001", shiftId := "S001" }]) :=
  (assignShift_pair_unique exDupState "E001" "S001").1 exEmployee exShift
    { employeeId := "E001", shiftId := "S001" }
    (by with_unfolding_all rfl) (by with_unfolding_all rfl) (by with_unfolding_all rfl)

/-- C4: `toMinutes` yields an integer number of minutes in `[0, 1439]`
on success; it yields the NaN sentinel exactly when the length is not 5,
the separator is not at position 2, either two-character part does not
convert to an integer, or the integer is out of range (hour beyond 23,
minute beyond 59); and the spec's three examples hold. -/
theorem toMinutes_spec (s : String) :
    (∀ q, toMinutes s = JsNum.num q → ∃ n : ℤ, q = (n : ℤ) ∧ 0 ≤ n ∧ n ≤ 1439) ∧
    (toMinutes s = JsNum.nan ↔
      ¬ (s.data.length = 5 ∧ s.data.get? 2 = some ':' ∧
         ∃ h m : ℤ, jsStringToNumber (hourStr s) = JsNum.num ((h : ℤ) : ℚ) ∧
           jsStringToNumber (minuteStr s) = JsNum.num ((m : ℤ) : ℚ) ∧
           0 ≤ h ∧ h ≤ 23 ∧ 0 ≤ m ∧ m ≤ 59)) ∧
    toMinutes "09:30" = JsNum.num 570 ∧
    toMinutes "9:30" = JsNum.nan ∧
    toMinutes "24:00" = JsNum.nan := by
  refine ⟨?_, ?_, by with_unfolding_all rfl, by with_unfolding_all rfl,
    by with_unfolding_all rfl⟩
  · intro q hq
    obtain ⟨⟨n, hn⟩, h0, h1⟩ := toMinutes_int_range s q hq
    refine ⟨n, hn, ?_, ?_⟩
    · rw [hn] at h0
      exact_mod_cast h0
    · rw [hn] at h1
      exact_mod_cast h1
  · have pos : toMinutes s ≠ JsNum.nan ↔
        (s.data.length = 5 ∧ s.data.get? 2 = some ':' ∧
         ∃ h m : ℤ, jsStringToNumber (hourStr s) = JsNum.num ((h : ℤ) : ℚ) ∧
           jsStringToNumber (minuteStr s) = JsNum.num ((m : ℤ) : ℚ) ∧
           0 ≤ h ∧ h ≤ 23 ∧ 0 ≤ m ∧ m ≤ 59) := by
      constructor
      · intro hne
        unfold toMinutes at hne
        split at hne
        · exact absurd rfl hne
        rename_i hlen
        split at hne
        · exact absurd rfl hne
        rename_i hsep
        split at hne
        · rename_i A B hA hB
          split at hne
          · exact absurd rfl hne
          rename_i hden
          split at hne
          · exact absurd rfl hne
          rename_i hrange
          push_neg at hlen hsep hden hrange
          obtain ⟨hd1, hd2⟩ := hden
          obtain ⟨hA0, hA23, hB0, hB59⟩ := hrange
          refine ⟨hlen, hsep, A.num, B.num,
            by rw [hA, Rat.coe_int_num_of_den_eq_one hd1],
            by rw [hB, Rat.coe_int_num_of_den_eq_one hd2], ?_, ?_, ?_, ?_⟩
          · rw [← Rat.coe_int_num_of_den_eq_one hd1] at hA0
            exact_mod_cast hA0
          · rw [← Rat.coe_int_num_of_den_eq_one hd1] at hA23
            exact_mod_cast hA23
          · rw [← Rat.coe_int_num_of_den_eq_one hd2] at hB0
            exact_mod_cast hB0
          · rw [← Rat.coe_int_num_of_den_eq_one hd2] at hB59
            exact_mod_cast hB59
        · exact absurd rfl hne
      · rintro ⟨hlen, hsep, h, m, hh, hm, hh0, hh23, hm0, hm59⟩
        unfold toMinutes
        rw [if_neg (by rw [hlen]; intro hc; exact hc rfl),
          if_neg (by rw [hsep]; intro hc; exact hc rfl), hh, hm]
        have hcond : ¬ (((h : ℤ) : ℚ).den ≠ 1 ∨ ((m : ℤ) : ℚ).den ≠ 1) := by
          rw [Rat.den_intCast, Rat.den_intCast]
          intro hc
          rcases hc with hc | hc <;> exact hc rfl
        dsimp only
        rw [if_neg hcond]
        have hcond2 : ¬ (((h : ℤ) : ℚ) < 0 ∨ 23 < ((h : ℤ) : ℚ) ∨
            ((m : ℤ) : ℚ) < 0 ∨ 59 < ((m : ℤ) : ℚ)) := by
          push_neg
          refine ⟨by exact_mod_cast hh0, by exact_mod_cast hh23,
            by exact_mod_cast hm0, by exact_mod_cast hm59⟩
        rw [if_neg hcond2]
        simp
    exact not_not.symm.trans (not_congr pos)

/-- Witness for C4: the first conjunct applied to `"09:30"`. -/
theorem toMinutes_spec_witness : ∃ n : ℤ, (570 : ℚ) = (n : ℤ) ∧ 0 ≤ n ∧ n ≤ 1439 :=
  (toMinutes_spec "09:30").1 570 (by with_unfolding_all rfl)

/-- C5: when both endpoints parse, the duration is end minus start with
1440 added when the end is numerically earlier than the start; the NaN
sentinel propagates from either endpoint; and the spec's two examples
hold. -/
theorem getShiftMinutes_spec :
    (∀ s e a b, toMinutes s = JsNum.num a → toMinutes e = JsNum.num b →
      getShiftMinutes s e
        = JsNum.num (if b < a then b + 24 * 60 - a else b - a)) ∧
    (∀ s e, toMinutes s = JsNum.nan ∨ toMinutes e = JsNum.nan →
      getShiftMinutes s e = JsNum.nan) ∧
    getShiftMinutes "22:00" "02:00" = JsNum.num 240 ∧
    getShiftMinutes "09:00" "17:00" = JsNum.num 480 := by
  refine ⟨?_, getShiftMinutes_nan_of, by with_unfolding_all rfl,
    by with_unfolding_all rfl⟩
  intro s e a b ha hb
  rw [getShiftMinutes_eq_of s e a b ha hb]
  by_cases hlt : b < a
  · rw [if_pos hlt, if_pos hlt]
  · rw [if_neg hlt, if_neg hlt]

/-- Witness for C5: the overnight example, derived from the first
conjunct at the parsed endpoint values. -/
theorem getShiftMinutes_spec_witness :
    getShiftMinutes "22:00" "02:00"
      = JsNum.num (if (120 : ℚ) < 1320 then 120 + 24 * 60 - 1320 else 120 - 1320) :=
  getShiftMinutes_spec.1 "22:00" "02:00" 1320 120
    (by with_unfolding_all rfl) (by with_unfolding_all rfl)

/-- C9: for endpoints that both parse, the duration is an integer in
`[0, 1439]`, zero exactly when start and end denote the same minute; a
zero-duration shift is rejected by `assignShift` with
"Invalid shift time format" — the very same message and outcome as a
shift whose time strings fail to parse. -/
theorem getShiftMinutes_zero_rejected :
    (∀ s e a b, toMinutes s = JsNum.num a → toMinutes e = JsNum.num b →
      ∃ q, getShiftMinutes s e = JsNum.num q ∧ (∃ n : ℤ, q = (n : ℤ)) ∧
        0 ≤ q ∧ q ≤ 1439 ∧ (q = 0 ↔ a = b)) ∧
    (∀ st empId shiftId emp shift v,
      findEmployee st.employees empId = some emp →
      findShift st.shifts shiftId = some shift →
      findAssignment st.assignments empId shiftId = none →
      st.maxDailyHours = JsNum.num v → 0 < v →
      getShiftMinutes shift.startTime shift.endTime = JsNum.num 0 →
      assignShift st empId shiftId = ("Invalid shift time format", st.assignments)) ∧
    (∀ st empId shiftId emp shift v,
      findEmployee st.employees empId = some emp →
      findShift st.shifts shiftId = some shift →
      findAssignment st.assignments empId shiftId = none →
      st.maxDailyHours = JsNum.num v → 0 < v →
      getShiftMinutes shift.startTime shift.endTime = JsNum.nan →
      assignShift st empId shiftId = ("Invalid shift time format", st.assignments)) := by
  refine ⟨?_, ?_, ?_⟩
  · intro s e a b ha hb
    have heq := getShiftMinutes_eq_of s e a b ha hb
    obtain ⟨hint, h0, h1439, hzero⟩ :=
      getShiftMinutes_int_range s e _ heq
    refine ⟨_, heq, hint, h0, h1439, ?_⟩
    rw [hzero]
    constructor
    · rintro ⟨c, hc, hc'⟩
      rw [hc] at ha
      rw [hc'] at hb
      injection ha with ha
      injection hb with hb
      rw [← ha, ← hb]
    · intro hab
      exact ⟨a, ha, hab ▸ hb⟩
  · intro st empId shiftId emp shift v hE hS hD hC hv hG
    exact assignShift_dur_nonpos st empId shiftId emp shift v 0
      hE hS hD hC hv hG le_rfl
  · intro st empId shiftId emp shift v hE hS hD hC hv hG
    exact assignShift_dur_nan st empId shiftId emp shift v hE hS hD hC hv hG

/-- A shift that starts and ends at the same minute, for the C9
witness. -/
def exZeroShift : Shift :=
  { shiftId := "S002", date := "2026-01-02", startTime := "09:00", endTime := "09:00" }

/-- A state containing only the zero-length shift, for the C9 witness. -/
def exZeroState : SchedState :=
  { employees := [exEmployee], shifts := [exZeroShift], assignments := [],
    maxDailyHours := JsNum.num 8 }

/-- Witness for C9: the zero-length shift is rejected with the invalid
time format message. -/
theorem getShiftMinutes_zero_rejected_witness :
    assignShift exZeroState "E001" "S002" = ("Invalid shift time format", []) :=
  getShiftMinutes_zero_rejected.2.1 exZeroState "E001" "S002" exEmployee exZeroShift 8
    (by with_unfolding_all rfl) (by with_unfolding_all rfl) (by with_unfolding_all rfl)
    (by with_unfolding_all rfl) (by with_unfolding_all decide) (by with_unfolding_all rfl)

/-- C6: any result other than "Ok" leaves the assignments unchanged;
"Ok" appends exactly one record, the requested pair. -/
theorem assignShift_mutates_only_on_success (st : SchedState) (empId shiftId : String) :
    ((assignShift st empId shiftId).1 ≠ "Ok" →
      (assignShift st empId shiftId).2 = st.assignments) ∧
    ((assignShift st empId shiftId).1 = "Ok" →
      (assignShift st empId shiftId).2
        = st.assignments ++ [{ employeeId := empId, shiftId := shiftId }]) := by
  rcases assignShift_cases st empId shiftId with ⟨hok, _⟩ | ⟨hne, heq⟩
  · constructor
    · intro hcon
      rw [hok] at hcon
      exact absurd rfl hcon
    · intro _
      rw [hok]
      rfl
  · exact ⟨fun _ => heq, fun h => absurd h hne⟩

/-- Witness for C6: a failing call (nonexistent shift) leaves the empty
assignments collection empty. -/
theorem assignShift_mutates_only_on_success_witness :
    (assignShift exState "E001" "S999").2 = [] :=
  (assignShift_mutates_only_on_success exState "E001" "S999").1
    (by with_unfolding_all decide)

/-- C7: `readSettings` always produces a positive `maxDailyHours`,
falling back to 8 on a missing/non-finite/non-positive value, so the
"Invalid config" branch of `assignShift` can never fire when the config
reaches it through `readSettings`/`getConfig`. -/
theorem readSettings_safe_default (raw : JsNum) :
    0 < readSettings raw ∧
    readSettings JsNum.nan = 8 ∧
    (∀ v : ℚ, v ≤ 0 → readSettings (JsNum.num v) = 8) ∧
    (∀ v : ℚ, 0 < v → readSettings (JsNum.num v) = v) ∧
    (∀ st : SchedState, ∀ empId shiftId : String,
      st.maxDailyHours = JsNum.num (getConfig raw) →
      (assignShift st empId shiftId).1
        ≠ "Invalid config: maxDailyHours must be a positive number") := by
  refine ⟨readSettings_pos raw, rfl, ?_, ?_, ?_⟩
  · intro v hv
    show (if v ≤ 0 then (8 : ℚ) else v) = 8
    rw [if_pos hv]
  · intro v hv
    show (if v ≤ 0 then (8 : ℚ) else v) = v
    rw [if_neg (not_le.mpr hv)]
  · intro st empId shiftId hC
    have hvpos : 0 < getConfig raw := readSettings_pos raw
    cases hE : findEmployee st.employees empId with
    | none =>
      rw [assignShift_emp_none st empId shiftId hE]
      simp
    | some emp =>
      cases hS : findShift st.shifts shiftId with
      | none =>
        rw [assignShift_shift_none st empId shiftId emp hE hS]
        simp
      | some shift =>
        cases hD : findAssignment st.assignments empId shiftId with
        | some a =>
          rw [assignShift_dup st empId shiftId emp shift a hE hS hD]
          simp
        | none =>
          cases hG : getShiftMinutes shift.startTime shift.endTime with
          | nan =>
            rw [assignShift_dur_nan st empId shiftId emp shift _ hE hS hD hC hvpos hG]
            simp
          | num d =>
            rcases le_or_lt d 0 with hd | hd
            · rw [assignShift_dur_nonpos st empId shiftId emp shift _ d
                hE hS hD hC hvpos hG hd]
              simp
            · cases hSum : sumSameDayMinutes
                  (getEmployeeShifts st.assignments st.shifts empId) shift.date 0 with
              | none =>
                rw [assignShift_sum_none st empId shiftId emp shift _ d
                  hE hS hD hC hvpos hG hd hSum]
                simp
              | some total =>
                rcases lt_or_le ((⌊getConfig raw * 60⌋ : ℤ) : ℚ) (total + d) with hO | hO
                · rw [assignShift_over st empId shiftId emp shift _ d total
                    hE hS hD hC hvpos hG hd hSum hO]
                  simp
                · rw [assignShift_ok st empId shiftId emp shift _ d total
                    hE hS hD hC hvpos hG hd hSum hO]
                  simp

/-- Witness for C7: a zero configured value falls back to 8. -/
theorem readSettings_safe_default_witness : readSettings (JsNum.num 0) = 8 :=
  (readSettings_safe_default (JsNum.num 0)).2.2.1 0 (by with_unfolding_all decide)

/-- Counterexample for C8: the POST edit handler does not respond 404
for a nonexistent employee — with valid fields it redirects. -/
theorem postEditEmployee_no_404_counterexample :
    findEmployee [exEmployee] "E999" = none ∧
    (postEditEmployee [exEmployee] "E999" (some "Bob") (some "1234-5678")).1
      = WebResponse.redirect "/" ∧
    ∀ msg, WebResponse.redirect "/" ≠ WebResponse.notFound msg := by
  refine ⟨by with_unfolding_all rfl, by with_unfolding_all rfl, ?_⟩
  intro msg hcon
  cases hcon

/-- C8 (amended): the POST edit handler redirects on success and
returns inline text on validation failure (empty trimmed name, or phone
not matching four digits, a dash, four digits); it never responds 404 —
it performs no existence check, so a nonexistent employee with valid
fields is still answered with the redirect (the update matches no
document).  The 404 guard exists only on the GET routes
(`getEmployeePage`). -/
theorem postEditEmployee_spec (employees : List Employee) (empId : String)
    (nameField phoneField : Option String) :
    ((jsTrim (nameField.getD "")).data.length = 0 →
      postEditEmployee employees empId nameField phoneField
        = (WebResponse.inlineText "Validation failed: Name must be non-empty",
          employees)) ∧
    ((jsTrim (nameField.getD "")).data.length ≠ 0 →
      phoneOk (jsTrim (phoneField.getD "")) = false →
      postEditEmployee employees empId nameField phoneField
        = (WebResponse.inlineText
            "Validation failed: Phone must be 4 digits, a dash, then 4 digits",
          employees)) ∧
    ((jsTrim (nameField.getD "")).data.length ≠ 0 →
      phoneOk (jsTrim (phoneField.getD "")) = true →
      postEditEmployee employees empId nameField phoneField
        = (WebResponse.redirect "/",
          updateEmployee employees empId (jsTrim (nameField.getD ""))
            (jsTrim (phoneField.getD "")))) ∧
    (∀ msg, (postEditEmployee employees empId nameField phoneField).1
      ≠ WebResponse.notFound msg) ∧
    (findEmployee employees empId = none →
      getEmployeePage employees empId = WebResponse.notFound "Employee not found") := by
  refine ⟨?_, ?_, ?_, ?_, ?_⟩
  · intro hname
    unfold postEditEmployee
    rw [if_pos hname]
  · intro hname hphone
    unfold postEditEmployee
    rw [if_neg hname, hphone]
    rfl
  · intro hname hphone
    unfold postEditEmployee
    rw [if_neg hname, hphone]
    rfl
  · intro msg
    unfold postEditEmployee
    by_cases hname : (jsTrim (nameField.getD "")).data.length = 0
    · rw [if_pos hname]
      simp
    · rw [if_neg hname]
      by_cases hphone : phoneOk (jsTrim (phoneField.getD ""))
      · rw [hphone]
        simp
      · rw [Bool.not_eq_true] at hphone
        rw [hphone]
        simp
  · intro hmiss
    unfold getEmployeePage
    rw [hmiss]

/-- Witness for C8: a nonexistent employee with valid fields is
redirected, not 404ed. -/
theorem postEditEmployee_spec_witness :
    postEditEmployee [exEmployee] "E999" (some "Bob") (some "1234-5678")
      = (WebResponse.redirect "/",
        updateEmployee [exEmployee] "E999" (jsTrim "Bob") (jsTrim "1234-5678")) :=
  (postEditEmployee_spec [exEmployee] "E999" (some "Bob") (some "1234-5678")).2.2.1
    (by with_unfolding_all decide) (by with_unfolding_all rfl)

/-- C10: the sorted schedule is a permutation of the employee's shifts,
in non-decreasing order of the key `date ++ " " ++ startTime` (date
ascending, then start time ascending). -/
theorem getScheduleForEmployeeSorted_spec (assignments : List Assignment)
    (shifts : List Shift) (empId : String) :
    List.Sorted (fun x y => shiftKey x ≤ shiftKey y)
      (getScheduleForEmployeeSorted assignments shifts empId) ∧
    (getScheduleForEmployeeSorted assignments shifts empId).Perm
      (getEmployeeShifts assignments shifts empId) := by
  unfold getScheduleForEmployeeSorted
  exact ⟨bubblePass_iterate_sorted _ _ rfl, bubblePass_iterate_perm _ _⟩
